import Mathlib

/-!
Verification of the offline caching and local-persistence core of the
Recipes PWA repository: the service worker in client/public/sw.js
(precache install, activation cleanup, fetch interception with three
caching strategies), the IndexedDB-backed favorites store in
client/src/features/favorites/db.ts, and the API client in
client/src/lib/api.ts.

The embedding is shallow: JavaScript objects become Lean structures,
the Cache Storage API becomes an association list of named partitions,
network `fetch` becomes an explicit function parameter
`net : Request -> Option Response` (`none` models a rejected fetch,
i.e. network failure), and each strategy becomes a pure function that
returns the response together with the updated cache storage.
-/

namespace Recipes

/-- JavaScript String.prototype.startsWith, modelled on the character
list (the platform primitive, used by the fetch listener and the
activate cleanup). -/
def strStartsWith (s p : String) : Bool := p.data.isPrefixOf s.data

/-- JavaScript String.prototype.trim, modelled on the character list:
drop leading and trailing whitespace. -/
def strTrim (s : String) : String :=
  ⟨((s.data.dropWhile Char.isWhitespace).reverse.dropWhile
      Char.isWhitespace).reverse⟩

/-- A captured HTTP response: status code and body snapshot. -/
structure Response where
  status : Nat
  body : String
deriving DecidableEq, Repr

/-- JavaScript Response.ok: status in the inclusive range 200..299. -/
def Response.ok (r : Response) : Bool :=
  decide (200 ≤ r.status ∧ r.status ≤ 299)

/-- An intercepted request. `url` is the full request URL used as the
cache key; `origin` and `pathname` model the fields of
`new URL(request.url)` computed by the fetch listener; `destination`
models `request.destination`. -/
structure Request where
  url : String
  origin : String
  pathname : String
  method : String
  destination : String
deriving DecidableEq, Repr

/-- A cache partition: a list of request/response entries, keyed by
request URL (the Cache API matches by URL). -/
abbrev Cache := List (Request × Response)

/-- Cache Storage: named partitions in creation order (the order
CacheStorage.match consults them). -/
abbrev CacheStorage := List (String × Cache)

/-- Cache.match on a single partition: first entry whose request URL
equals the given URL. -/
def cacheEntry : Cache → String → Option (Request × Response)
  | [], _ => none
  | e :: rest, u => if e.1.url == u then some e else cacheEntry rest u

/-- The response component of a cache lookup. -/
def cacheMatch (c : Cache) (u : String) : Option Response :=
  (cacheEntry c u).map (·.2)

/-- Cache.put: overwrite the entry with the same URL, or append a new
entry. -/
def cachePut (c : Cache) (req : Request) (r : Response) : Cache :=
  match c with
  | [] => [(req, r)]
  | e :: rest =>
    if e.1.url == req.url then (req, r) :: rest else e :: cachePut rest req r

/-- Look up a partition by name. -/
def storageLookup : CacheStorage → String → Option Cache
  | [], _ => none
  | p :: rest, n => if p.1 == n then some p.2 else storageLookup rest n

/-- The contents of a named partition, empty when the partition does
not exist. -/
def partContents (st : CacheStorage) (n : String) : Cache :=
  (storageLookup st n).getD []

/-- The entry stored for a URL in a named partition. -/
def entryIn (st : CacheStorage) (n : String) (u : String) :
    Option (Request × Response) :=
  cacheEntry (partContents st n) u

/-- caches.open: return the storage with the named partition present,
creating an empty one (at the end, i.e. most recently created) if
absent. -/
def storageOpen (st : CacheStorage) (n : String) : CacheStorage :=
  if (storageLookup st n).isSome then st else st ++ [(n, [])]

/-- Write an entry into the named partition (no-op if the partition
does not exist; the code always opens the partition first). -/
def storagePut (st : CacheStorage) (n : String) (req : Request)
    (r : Response) : CacheStorage :=
  match st with
  | [] => []
  | p :: rest =>
    if p.1 == n then (p.1, cachePut p.2 req r) :: rest
    else p :: storagePut rest n req r

/-- caches.open followed by cache.put. -/
def storageOpenPut (st : CacheStorage) (n : String) (req : Request)
    (r : Response) : CacheStorage :=
  storagePut (storageOpen st n) n req r

/-- caches.match: search every partition in creation order and return
the first hit. -/
def storageMatch : CacheStorage → String → Option Response
  | [], _ => none
  | p :: rest, u =>
    match cacheMatch p.2 u with
    | some r => some r
    | none => storageMatch rest u

/-- caches.delete for a list of names (the activate cleanup's
Promise.all over deletions). -/
def storageDeleteAll (st : CacheStorage) (names : List String) :
    CacheStorage :=
  st.filter (fun p => !(names.contains p.1))

/-! ## Constants from sw.js -/

def CACHE_VERSION : String := "v1"

def PRECACHE_NAME : String := "recipes-precache-v1"

def RUNTIME_CACHE : String := "recipes-runtime-v1"

def IMAGES_CACHE : String := "recipes-images-v1"

/-- The fixed precache manifest (app shell). -/
def PRECACHE_URLS : List String :=
  ["/", "/index.html", "/manifest.webmanifest", "/offline.html"]

/-- The request object the Cache API constructs for a bare URL string
(as in cache.addAll and caches.match with a string argument). -/
def requestOfUrl (u : String) : Request :=
  { url := u, origin := "", pathname := u, method := "GET",
    destination := "" }

/-! ## The three caching strategies (sw.js lines 105-193) -/

/-- networkFirstStrategy: try the network; cache successful GET
responses in the runtime partition; on network failure fall back to
`caches.match` over all partitions, then to the precached offline
fallback for documents, then to a synthetic 503. The result response
is an `Option` because `caches.match("/offline.html")` resolves to
`undefined` (here `none`) when that entry is absent. -/
def networkFirstStrategy (net : Request → Option Response)
    (st : CacheStorage) (req : Request) :
    Option Response × CacheStorage :=
  match net req with
  | some response =>
    if response.ok && (req.method == "GET") then
      (some response, storageOpenPut st RUNTIME_CACHE req response)
    else
      (some response, st)
  | none =>
    match storageMatch st req.url with
    | some cached => (some cached, st)
    | none =>
      if req.destination == "document" then
        (storageMatch st "/offline.html", st)
      else
        (some { status := 503, body := "Offline - No cache available" }, st)

/-- staleWhileRevalidateStrategy: open the images partition; on a
cache hit return the cached copy and refresh the entry in the
background when the re-fetch succeeds with an ok status (failures
swallowed); on a miss fetch synchronously, store ok responses, and
return a synthetic 503 on network failure. -/
def staleWhileRevalidateStrategy (net : Request → Option Response)
    (st : CacheStorage) (req : Request) : Response × CacheStorage :=
  let st0 := storageOpen st IMAGES_CACHE
  match cacheMatch (partContents st0 IMAGES_CACHE) req.url with
  | some cached =>
    let st1 :=
      match net req with
      | some response =>
        if response.ok then storagePut st0 IMAGES_CACHE req response
        else st0
      | none => st0
    (cached, st1)
  | none =>
    match net req with
    | some response =>
      if response.ok then
        (response, storagePut st0 IMAGES_CACHE req response)
      else
        (response, st0)
    | none => ({ status := 503, body := "Image unavailable" }, st0)

/-- cacheFirstStrategy: open the precache partition; return a cached
copy when present; otherwise fetch, store successful GET responses
into the precache partition, and return a synthetic 503 on network
failure. -/
def cacheFirstStrategy (net : Request → Option Response)
    (st : CacheStorage) (req : Request) : Response × CacheStorage :=
  let st0 := storageOpen st PRECACHE_NAME
  match cacheMatch (partContents st0 PRECACHE_NAME) req.url with
  | some cached => (cached, st0)
  | none =>
    match net req with
    | some response =>
      if response.ok && (req.method == "GET") then
        (response, storagePut st0 PRECACHE_NAME req response)
      else
        (response, st0)
    | none => ({ status := 503, body := "Offline" }, st0)

/-! ## Fetch listener (sw.js lines 65-99) -/

/-- Which strategy a request is dispatched to, or pass-through when
the listener returns without calling event.respondWith. -/
inductive Dispatch where
  | networkFirst
  | staleWhileRevalidate
  | cacheFirst
  | passThrough
deriving DecidableEq, Repr

/-- The fetch listener's classification: skip non-GET and cross-origin
requests, then first-match over API path, image destination, and
static-asset destinations, defaulting to network-first. -/
def fetchListener (selfOrigin : String) (req : Request) : Dispatch :=
  if !(req.method == "GET") then .passThrough
  else if !(req.origin == selfOrigin) then .passThrough
  else if strStartsWith req.pathname "/api" then .networkFirst
  else if req.destination == "image" then .staleWhileRevalidate
  else if req.destination == "style" || req.destination == "script"
      || req.destination == "font" then .cacheFirst
  else .networkFirst

/-! ## Install and activate listeners (sw.js lines 25-62) -/

/-- cache.addAll fetch phase: fetch every URL; the batch fails (and
nothing at all is committed, per the atomic batch semantics of
Cache.addAll) if any fetch rejects or returns a non-ok response. -/
def fetchAllOk (net : Request → Option Response) :
    List String → Option (List (Request × Response))
  | [] => some []
  | u :: rest =>
    match net (requestOfUrl u) with
    | some r =>
      if r.ok then
        (fetchAllOk net rest).map (fun es => (requestOfUrl u, r) :: es)
      else none
    | none => none

/-- Write a list of entries into a named partition in order. -/
def storagePutAll (st : CacheStorage) (n : String) :
    List (Request × Response) → CacheStorage
  | [] => st
  | (req, r) :: rest => storagePutAll (storagePut st n req r) n rest

/-- The install listener: open the precache partition and addAll the
manifest. The Bool records whether the install step succeeded. -/
def installStep (net : Request → Option Response) (st : CacheStorage) :
    Bool × CacheStorage :=
  let st0 := storageOpen st PRECACHE_NAME
  match fetchAllOk net PRECACHE_URLS with
  | some entries => (true, storagePutAll st0 PRECACHE_NAME entries)
  | none => (false, st0)

/-- The names the activate listener deletes: every existing name that
starts with the cache prefix and is none of the three current
names. -/
def activateDeletions (names : List String) : List String :=
  (names.filter (fun n => strStartsWith n "recipes")).filter
    (fun n =>
      !(n == PRECACHE_NAME) && !(n == RUNTIME_CACHE)
        && !(n == IMAGES_CACHE))

/-- The activate listener's cleanup over the whole storage. -/
def activateStep (st : CacheStorage) : CacheStorage :=
  storageDeleteAll st (activateDeletions (st.map (·.1)))

/-! ## Favorites store (client/src/features/favorites/db.ts)

The object store "favorites" has keyPath "idMeal". IndexedDB state is
modelled as a list of records; `db.put` replaces the record with the
same key or inserts, `db.delete` removes by key, `db.get` looks up by
key and resolves with `undefined` (here `none`) when absent. -/

/-- A Meal record (client/src/lib/api.ts): required identifier, name
and thumbnail, plus an open set of optional string fields (category,
area, instructions, ingredient/measure pairs, ...). -/
structure Meal where
  idMeal : String
  strMeal : String
  strMealThumb : String
  extra : List (String × String)
deriving DecidableEq, Repr

abbrev FavoritesStore := List Meal

/-- db.put on the favorites store: upsert keyed by idMeal. -/
def saveFavorite (st : FavoritesStore) (meal : Meal) : FavoritesStore :=
  match st with
  | [] => [meal]
  | m :: rest =>
    if m.idMeal == meal.idMeal then meal :: rest
    else m :: saveFavorite rest meal

/-- db.delete on the favorites store: remove the record with the given
key; resolves normally whether or not the key was present. -/
def removeFavorite (st : FavoritesStore) (mealId : String) :
    FavoritesStore :=
  st.filter (fun m => !(m.idMeal == mealId))

/-- db.get on the favorites store: the record with the given key, or
`none` (IndexedDB resolves with undefined) when absent. -/
def getFavorite : FavoritesStore → String → Option Meal
  | [], _ => none
  | m :: rest, mealId =>
    if m.idMeal == mealId then some m else getFavorite rest mealId

/-- isFavorited: derived from getFavorite. -/
def isFavorited (st : FavoritesStore) (mealId : String) : Bool :=
  (getFavorite st mealId).isSome

/-- The keyPath invariant IndexedDB maintains: at most one record per
idMeal. -/
def distinctKeys (st : FavoritesStore) : Prop :=
  (st.map (·.idMeal)).Nodup

/-! ## API client (client/src/lib/api.ts, searchMeals) -/

/-- The parsed body of a /api/search response. -/
structure SearchResponse where
  meals : Option (List Meal)
deriving DecidableEq, Repr

/-- searchMeals. `enc` abstracts the platform's encodeURIComponent;
`net` maps a URL to `none` (fetch rejected) or to the response's `ok`
flag paired with its parsed JSON body. The second component of the
result records the URLs fetched, in order, so that "no network request
is issued" is expressible. -/
def searchMeals (enc : String → String)
    (net : String → Option (Bool × SearchResponse)) (query : String) :
    Except String (List Meal) × List String :=
  if strTrim query == "" then (Except.ok [], [])
  else
    let url := "/api/search?s=" ++ enc query
    match net url with
    | none => (Except.error "NetworkError", [url])
    | some (ok, data) =>
      if ok then (Except.ok (data.meals.getD []), [url])
      else (Except.error "Failed to search meals", [url])

/-! ## Specification predicates and concrete scenarios -/

/-- The names of the existing cache partitions (caches.keys). -/
def keysOf (st : CacheStorage) : List String := st.map (·.1)

/-- The write discipline the spec claims for a strategy execution with
designated partition `target`: no entry is ever deleted, and the only
entry that may change is the one for the request's URL in the
designated partition, written as the request paired with a network
response whose status indicates success, for a GET request. -/
def writeDiscipline (target : String) (req : Request)
    (net : Request → Option Response) (st st' : CacheStorage) : Prop :=
  (∀ n u, (entryIn st n u).isSome → (entryIn st' n u).isSome)
    ∧ (∀ n u, entryIn st' n u ≠ entryIn st n u →
        n = target ∧ u = req.url
          ∧ ∃ r, net req = some r ∧ r.ok = true ∧ req.method = "GET"
              ∧ entryIn st' n u = some (req, r))

/-- Modelled from the spec: the Network-First fallback behaviour as
the claim words it — on network failure, look up the RUNTIME partition
only for a stored copy of this exact request; if absent and the
request is a document, return the precached offline-fallback document
from the precache partition; otherwise a synthetic 503. The success
branch is as in the code. This definition exists solely to compare
the claim's words with the code, whose fallback searches every
partition via caches.match. -/
def networkFirstClaimC1 (net : Request → Option Response)
    (st : CacheStorage) (req : Request) :
    Option Response × CacheStorage :=
  match net req with
  | some response =>
    if response.ok && (req.method == "GET") then
      (some response, storageOpenPut st RUNTIME_CACHE req response)
    else
      (some response, st)
  | none =>
    match cacheMatch (partContents st RUNTIME_CACHE) req.url with
    | some cached => (some cached, st)
    | none =>
      if req.destination == "document" then
        (cacheMatch (partContents st PRECACHE_NAME) "/offline.html", st)
      else
        (some { status := 503, body := "Offline - No cache available" }, st)

/-- A network that is unreachable: every fetch rejects. -/
def offlineNet : Request → Option Response := fun _ => none

/-- A network that answers every fetch with a 200 response. -/
def okNet : Request → Option Response :=
  fun req => some { status := 200, body := req.url }

/-- A same-origin GET navigation request for /index.html. -/
def indexRequest : Request :=
  { url := "/index.html", origin := "https://recipes.example",
    pathname := "/index.html", method := "GET",
    destination := "document" }

/-- A same-origin GET request for an API search. -/
def apiRequest : Request :=
  { url := "/api/search?s=pie", origin := "https://recipes.example",
    pathname := "/api/search?s=pie", method := "GET",
    destination := "" }

/-- A same-origin GET request for an image. -/
def imageRequest : Request :=
  { url := "/images/pie.png", origin := "https://recipes.example",
    pathname := "/images/pie.png", method := "GET",
    destination := "image" }

/-- The cached copy of /index.html placed by install. -/
def indexCached : Response := { status := 200, body := "index page" }

/-- The precached offline-fallback document. -/
def offlineCached : Response := { status := 200, body := "offline page" }

/-- The cache storage right after a fresh install and activation: the
precache partition holds the four shell URLs and the runtime and
images partitions are empty. -/
def precacheOnlyState : CacheStorage :=
  [(PRECACHE_NAME,
    [(requestOfUrl "/", { status := 200, body := "root" }),
     (requestOfUrl "/index.html", indexCached),
     (requestOfUrl "/manifest.webmanifest",
       { status := 200, body := "manifest" }),
     (requestOfUrl "/offline.html", offlineCached)]),
   (RUNTIME_CACHE, []),
   (IMAGES_CACHE, [])]

/-- A storage with one partition from a superseded version, the three
current partitions, and one foreign (non-core) cache. -/
def mixedVersionState : CacheStorage :=
  [("recipes-precache-v0", []),
   (PRECACHE_NAME, []),
   (RUNTIME_CACHE, []),
   (IMAGES_CACHE, []),
   ("workbox-other", [])]

/-- A cached image entry used in witnesses. -/
def pieCached : Response := { status := 200, body := "png bytes" }

/-- Storage holding one image cache entry. -/
def imageCachedState : CacheStorage :=
  [(IMAGES_CACHE, [(imageRequest, pieCached)])]

/-- A sample favorite record. -/
def pieMeal : Meal :=
  { idMeal := "52874", strMeal := "Beef and Mustard Pie",
    strMealThumb := "https://example.com/pie.jpg",
    extra := [("strCategory", "Beef")] }

/-- A second favorite record with a different key. -/
def tartMeal : Meal :=
  { idMeal := "52768", strMeal := "Apple Frangipan Tart",
    strMealThumb := "https://example.com/tart.jpg", extra := [] }

/-- An updated snapshot of pieMeal under the same key. -/
def pieMealV2 : Meal :=
  { idMeal := "52874", strMeal := "Beef and Mustard Pie",
    strMealThumb := "https://example.com/pie2.jpg", extra := [] }

/-- A proxy response whose body is the meals-null JSON. -/
def nullMealsNet : String → Option (Bool × SearchResponse) :=
  fun _ => some (true, { meals := none })

/-! ## Lemmas about the cache model -/

theorem cacheEntry_cachePut (c : Cache) (req : Request) (r : Response)
    (u : String) :
    cacheEntry (cachePut c req r) u
      = if u = req.url then some (req, r) else cacheEntry c u := by
  induction c with
  | nil =>
    by_cases h : u = req.url
    · simp [cachePut, cacheEntry, h]
    · simp [cachePut, cacheEntry, h, beq_iff_eq, Ne.symm h]
  | cons e rest ih =>
    by_cases he : e.1.url = req.url
    · by_cases h : u = req.url
      · simp [cachePut, cacheEntry, beq_iff_eq, he, h]
      · simp [cachePut, cacheEntry, beq_iff_eq, he, h, Ne.symm h]
    · by_cases hu : e.1.url = u
      · have h2 : ¬ u = req.url := fun hx => he (hu.trans hx)
        simp [cachePut, cacheEntry, beq_iff_eq, he, hu, h2]
      · simp [cachePut, cacheEntry, beq_iff_eq, he, hu, ih]

theorem storageLookup_append_single (st : CacheStorage) (n m : String)
    (c : Cache) :
    storageLookup (st ++ [(n, c)]) m
      = match storageLookup st m with
        | some c0 => some c0
        | none => if n = m then some c else none := by
  induction st with
  | nil =>
    by_cases h : n = m <;> simp [storageLookup, beq_iff_eq, h]
  | cons p rest ih =>
    by_cases h : p.1 = m
    · simp [storageLookup, beq_iff_eq, h]
    · simpa [storageLookup, beq_iff_eq, h] using ih

theorem storageLookup_storageOpen_self (st : CacheStorage)
    (n : String) :
    storageLookup (storageOpen st n) n
      = match storageLookup st n with
        | some c => some c
        | none => some [] := by
  rw [storageOpen]
  cases h : storageLookup st n with
  | some c => simp [h]
  | none => simp [h, storageLookup_append_single]

theorem storageLookup_storageOpen_isSome (st : CacheStorage)
    (n : String) : (storageLookup (storageOpen st n) n).isSome := by
  rw [storageLookup_storageOpen_self]
  cases h : storageLookup st n <;> simp

theorem storageLookup_storageOpen (st : CacheStorage) (n m : String) :
    storageLookup (storageOpen st n) m
      = match storageLookup st m with
        | some c0 => some c0
        | none =>
          if n = m ∧ storageLookup st n = none then some [] else none := by
  rw [storageOpen]
  cases h : storageLookup st n with
  | some c =>
    rw [if_pos (by simp [h])]
    cases hm : storageLookup st m with
    | some c0 => simp
    | none =>
      by_cases hnm : n = m
      · subst hnm
        simp [h] at hm
      · simp [hnm]
  | none =>
    rw [if_neg (by simp [h]), storageLookup_append_single]
    cases hm : storageLookup st m with
    | some c0 => simp
    | none => simp [h]

theorem partContents_storageOpen (st : CacheStorage) (n m : String) :
    partContents (storageOpen st n) m = partContents st m := by
  rw [partContents, partContents, storageLookup_storageOpen]
  cases hm : storageLookup st m with
  | some c0 => rfl
  | none =>
    by_cases h2 : n = m ∧ storageLookup st n = none <;> simp [h2, hm]

theorem entryIn_storageOpen (st : CacheStorage) (n m u : String) :
    entryIn (storageOpen st n) m u = entryIn st m u := by
  rw [entryIn, entryIn, partContents_storageOpen]

theorem storageLookup_storagePut (st : CacheStorage) (n : String)
    (req : Request) (r : Response) (m : String) :
    storageLookup (storagePut st n req r) m
      = if m = n then
          (storageLookup st n).map (fun c => cachePut c req r)
        else storageLookup st m := by
  induction st with
  | nil => by_cases h : m = n <;> simp [storagePut, storageLookup, h]
  | cons p rest ih =>
    by_cases hp : p.1 = n
    · by_cases hm : m = n
      · have hpm : p.1 = m := hp.trans hm.symm
        simp [storagePut, storageLookup, beq_iff_eq, hp, hm, hpm]
      · have hpm : ¬ p.1 = m := fun hx => hm (hx.symm.trans hp)
        simp [storagePut, storageLookup, beq_iff_eq, hp, hm, hpm,
          Ne.symm hm]
    · by_cases hm : p.1 = m
      · have h2 : ¬ m = n := fun hx => hp (hm.trans hx)
        simp [storagePut, storageLookup, beq_iff_eq, hp, hm, h2]
      · by_cases hmn : m = n
        · subst hmn
          simp [storagePut, storageLookup, beq_iff_eq, hp, hm, ih]
        · simp [storagePut, storageLookup, beq_iff_eq, hp, hm, hmn, ih]

theorem partContents_storagePut (st : CacheStorage) (n : String)
    (req : Request) (r : Response)
    (h : (storageLookup st n).isSome) (m : String) :
    partContents (storagePut st n req r) m
      = if m = n then cachePut (partContents st n) req r
        else partContents st m := by
  rcases Option.isSome_iff_exists.mp h with ⟨c, hc⟩
  rw [partContents, partContents, storageLookup_storagePut]
  by_cases hm : m = n
  · simp [hm, hc, partContents]
  · simp [hm, partContents]

theorem cacheMatch_cachePut_self (c : Cache) (req : Request)
    (r : Response) : cacheMatch (cachePut c req r) req.url = some r := by
  rw [cacheMatch, cacheEntry_cachePut]
  simp

theorem storageMatch_storagePut_self_of_none (st : CacheStorage)
    (n : String) (req : Request) (r : Response)
    (hnone : storageMatch st req.url = none)
    (hsome : (storageLookup st n).isSome) :
    storageMatch (storagePut st n req r) req.url = some r := by
  induction st with
  | nil => simp [storageLookup] at hsome
  | cons p rest ih =>
    have hphead : cacheMatch p.2 req.url = none := by
      cases hx : cacheMatch p.2 req.url with
      | none => rfl
      | some c0 => simp [storageMatch, hx] at hnone
    have hrest_none : storageMatch rest req.url = none := by
      simpa [storageMatch, hphead] using hnone
    by_cases hp : p.1 = n
    · simp [storagePut, beq_iff_eq, hp, storageMatch,
        cacheMatch_cachePut_self]
    · have hrs : (storageLookup rest n).isSome := by
        simpa [storageLookup, beq_iff_eq, hp] using hsome
      simp [storagePut, beq_iff_eq, hp, storageMatch, hphead,
        ih hrest_none hrs]

theorem storageMatch_append (st1 st2 : CacheStorage) (u : String) :
    storageMatch (st1 ++ st2) u
      = match storageMatch st1 u with
        | some r => some r
        | none => storageMatch st2 u := by
  induction st1 with
  | nil => simp [storageMatch]
  | cons p rest ih =>
    cases hx : cacheMatch p.2 u with
    | some r => simp [storageMatch, hx]
    | none => simp [storageMatch, hx, ih]

theorem storageMatch_storageOpen (st : CacheStorage) (n : String)
    (u : String) (hnone : storageMatch st u = none) :
    storageMatch (storageOpen st n) u = none := by
  rw [storageOpen]
  by_cases h : (storageLookup st n).isSome
  · simp [h, hnone]
  · rw [if_neg h, storageMatch_append, hnone]
    simp [storageMatch, cacheMatch, cacheEntry]

theorem storageMatch_storageOpenPut_self_of_none (st : CacheStorage)
    (n : String) (req : Request) (r : Response)
    (hnone : storageMatch st req.url = none) :
    storageMatch (storageOpenPut st n req r) req.url = some r := by
  rw [storageOpenPut]
  exact storageMatch_storagePut_self_of_none _ _ _ _
    (storageMatch_storageOpen st n req.url hnone)
    (storageLookup_storageOpen_isSome st n)

theorem entryIn_storageOpenPut (st : CacheStorage) (n : String)
    (req : Request) (r : Response) (m u : String) :
    entryIn (storageOpenPut st n req r) m u
      = if m = n ∧ u = req.url then some (req, r)
        else entryIn st m u := by
  rw [storageOpenPut, entryIn,
    partContents_storagePut _ _ _ _ (storageLookup_storageOpen_isSome st n)]
  by_cases hm : m = n
  · rw [if_pos hm, cacheEntry_cachePut]
    by_cases hu : u = req.url
    · simp [hm, hu]
    · simp [hm, hu, entryIn, partContents_storageOpen]
  · simp [hm, entryIn, entryIn_storageOpen, partContents_storageOpen]

/-! ## Branch lemmas for the three strategies -/

theorem nf_ok (net : Request → Option Response) (st : CacheStorage)
    (req : Request) (r : Response) (hn : net req = some r)
    (hc : (r.ok && (req.method == "GET")) = true) :
    networkFirstStrategy net st req
      = (some r, storageOpenPut st RUNTIME_CACHE req r) := by
  simp [networkFirstStrategy, hn, hc]

theorem nf_ok_nocache (net : Request → Option Response)
    (st : CacheStorage) (req : Request) (r : Response)
    (hn : net req = some r)
    (hc : (r.ok && (req.method == "GET")) = false) :
    networkFirstStrategy net st req = (some r, st) := by
  simp [networkFirstStrategy, hn, hc]

theorem nf_offline_cached (net : Request → Option Response)
    (st : CacheStorage) (req : Request) (c : Response)
    (hn : net req = none) (hc : storageMatch st req.url = some c) :
    networkFirstStrategy net st req = (some c, st) := by
  simp [networkFirstStrategy, hn, hc]

theorem nf_offline_document (net : Request → Option Response)
    (st : CacheStorage) (req : Request) (hn : net req = none)
    (hc : storageMatch st req.url = none)
    (hd : req.destination = "document") :
    networkFirstStrategy net st req
      = (storageMatch st "/offline.html", st) := by
  simp [networkFirstStrategy, hn, hc, hd]

theorem nf_offline_other (net : Request → Option Response)
    (st : CacheStorage) (req : Request) (hn : net req = none)
    (hc : storageMatch st req.url = none)
    (hd : ¬ req.destination = "document") :
    networkFirstStrategy net st req
      = (some { status := 503, body := "Offline - No cache available" },
         st) := by
  simp [networkFirstStrategy, hn, hc, hd]

theorem swr_hit_fst (net : Request → Option Response)
    (st : CacheStorage) (req : Request) (cached : Response)
    (h : cacheMatch (partContents st IMAGES_CACHE) req.url
          = some cached) :
    (staleWhileRevalidateStrategy net st req).1 = cached := by
  have h0 : cacheMatch
      (partContents (storageOpen st IMAGES_CACHE) IMAGES_CACHE) req.url
        = some cached := by
    rw [partContents_storageOpen]
    exact h
  cases hn : net req with
  | some r =>
    by_cases hok : r.ok = true <;>
      simp [staleWhileRevalidateStrategy, h0, hn, hok]
  | none => simp [staleWhileRevalidateStrategy, h0, hn]

theorem swr_hit_snd_refresh (net : Request → Option Response)
    (st : CacheStorage) (req : Request) (cached r : Response)
    (h : cacheMatch (partContents st IMAGES_CACHE) req.url
          = some cached)
    (hn : net req = some r) (hok : r.ok = true) :
    (staleWhileRevalidateStrategy net st req).2
      = storageOpenPut st IMAGES_CACHE req r := by
  have h0 : cacheMatch
      (partContents (storageOpen st IMAGES_CACHE) IMAGES_CACHE) req.url
        = some cached := by
    rw [partContents_storageOpen]
    exact h
  simp [staleWhileRevalidateStrategy, h0, hn, hok, storageOpenPut]

theorem swr_hit_snd_badresp (net : Request → Option Response)
    (st : CacheStorage) (req : Request) (cached r : Response)
    (h : cacheMatch (partContents st IMAGES_CACHE) req.url
          = some cached)
    (hn : net req = some r) (hok : r.ok = false) :
    (staleWhileRevalidateStrategy net st req).2
      = storageOpen st IMAGES_CACHE := by
  have h0 : cacheMatch
      (partContents (storageOpen st IMAGES_CACHE) IMAGES_CACHE) req.url
        = some cached := by
    rw [partContents_storageOpen]
    exact h
  simp [staleWhileRevalidateStrategy, h0, hn, hok]

theorem swr_hit_snd_offline (net : Request → Option Response)
    (st : CacheStorage) (req : Request) (cached : Response)
    (h : cacheMatch (partContents st IMAGES_CACHE) req.url
          = some cached)
    (hn : net req = none) :
    (staleWhileRevalidateStrategy net st req).2
      = storageOpen st IMAGES_CACHE := by
  have h0 : cacheMatch
      (partContents (storageOpen st IMAGES_CACHE) IMAGES_CACHE) req.url
        = some cached := by
    rw [partContents_storageOpen]
    exact h
  simp [staleWhileRevalidateStrategy, h0, hn]

theorem swr_miss_ok (net : Request → Option Response)
    (st : CacheStorage) (req : Request) (r : Response)
    (h : cacheMatch (partContents st IMAGES_CACHE) req.url = none)
    (hn : net req = some r) (hok : r.ok = true) :
    staleWhileRevalidateStrategy net st req
      = (r, storageOpenPut st IMAGES_CACHE req r) := by
  have h0 : cacheMatch
      (partContents (storageOpen st IMAGES_CACHE) IMAGES_CACHE) req.url
        = none := by
    rw [partContents_storageOpen]
    exact h
  simp [staleWhileRevalidateStrategy, h0, hn, hok, storageOpenPut]

theorem swr_miss_badresp (net : Request → Option Response)
    (st : CacheStorage) (req : Request) (r : Response)
    (h : cacheMatch (partContents st IMAGES_CACHE) req.url = none)
    (hn : net req = some r) (hok : r.ok = false) :
    staleWhileRevalidateStrategy net st req
      = (r, storageOpen st IMAGES_CACHE) := by
  have h0 : cacheMatch
      (partContents (storageOpen st IMAGES_CACHE) IMAGES_CACHE) req.url
        = none := by
    rw [partContents_storageOpen]
    exact h
  simp [staleWhileRevalidateStrategy, h0, hn, hok]

theorem swr_miss_offline (net : Request → Option Response)
    (st : CacheStorage) (req : Request)
    (h : cacheMatch (partContents st IMAGES_CACHE) req.url = none)
    (hn : net req = none) :
    staleWhileRevalidateStrategy net st req
      = ({ status := 503, body := "Image unavailable" },
         storageOpen st IMAGES_CACHE) := by
  have h0 : cacheMatch
      (partContents (storageOpen st IMAGES_CACHE) IMAGES_CACHE) req.url
        = none := by
    rw [partContents_storageOpen]
    exact h
  simp [staleWhileRevalidateStrategy, h0, hn]

theorem cf_hit (net : Request → Option Response) (st : CacheStorage)
    (req : Request) (cached : Response)
    (h : cacheMatch (partContents st PRECACHE_NAME) req.url
          = some cached) :
    cacheFirstStrategy net st req
      = (cached, storageOpen st PRECACHE_NAME) := by
  have h0 : cacheMatch
      (partContents (storageOpen st PRECACHE_NAME) PRECACHE_NAME) req.url
        = some cached := by
    rw [partContents_storageOpen]
    exact h
  simp [cacheFirstStrategy, h0]

theorem cf_miss_ok (net : Request → Option Response)
    (st : CacheStorage) (req : Request) (r : Response)
    (h : cacheMatch (partContents st PRECACHE_NAME) req.url = none)
    (hn : net req = some r)
    (hc : (r.ok && (req.method == "GET")) = true) :
    cacheFirstStrategy net st req
      = (r, storageOpenPut st PRECACHE_NAME req r) := by
  have h0 : cacheMatch
      (partContents (storageOpen st PRECACHE_NAME) PRECACHE_NAME) req.url
        = none := by
    rw [partContents_storageOpen]
    exact h
  simp [cacheFirstStrategy, h0, hn, hc, storageOpenPut]

theorem cf_miss_nocache (net : Request → Option Response)
    (st : CacheStorage) (req : Request) (r : Response)
    (h : cacheMatch (partContents st PRECACHE_NAME) req.url = none)
    (hn : net req = some r)
    (hc : (r.ok && (req.method == "GET")) = false) :
    cacheFirstStrategy net st req
      = (r, storageOpen st PRECACHE_NAME) := by
  have h0 : cacheMatch
      (partContents (storageOpen st PRECACHE_NAME) PRECACHE_NAME) req.url
        = none := by
    rw [partContents_storageOpen]
    exact h
  simp [cacheFirstStrategy, h0, hn, hc]

theorem cf_miss_offline (net : Request → Option Response)
    (st : CacheStorage) (req : Request)
    (h : cacheMatch (partContents st PRECACHE_NAME) req.url = none)
    (hn : net req = none) :
    cacheFirstStrategy net st req
      = ({ status := 503, body := "Offline" },
         storageOpen st PRECACHE_NAME) := by
  have h0 : cacheMatch
      (partContents (storageOpen st PRECACHE_NAME) PRECACHE_NAME) req.url
        = none := by
    rw [partContents_storageOpen]
    exact h
  simp [cacheFirstStrategy, h0, hn]

/-! ## Write-discipline lemmas -/

theorem writeDiscipline_refl (t : String) (req : Request)
    (net : Request → Option Response) (st : CacheStorage) :
    writeDiscipline t req net st st :=
  ⟨fun _ _ h => h, fun _ _ h => absurd rfl h⟩

theorem writeDiscipline_open (t : String) (req : Request)
    (net : Request → Option Response) (st : CacheStorage)
    (n : String) :
    writeDiscipline t req net st (storageOpen st n) := by
  constructor
  · intro m u h
    rw [entryIn_storageOpen]
    exact h
  · intro m u h
    rw [entryIn_storageOpen] at h
    exact absurd rfl h

theorem writeDiscipline_openPut (t : String) (req : Request)
    (net : Request → Option Response) (st : CacheStorage)
    (r : Response) (hr : net req = some r) (hok : r.ok = true)
    (hm : req.method = "GET") :
    writeDiscipline t req net st (storageOpenPut st t req r) := by
  constructor
  · intro n u h
    rw [entryIn_storageOpenPut]
    by_cases hcond : n = t ∧ u = req.url
    · simp [hcond]
    · rw [if_neg hcond]
      exact h
  · intro n u hne
    rw [entryIn_storageOpenPut] at hne
    by_cases hcond : n = t ∧ u = req.url
    · refine ⟨hcond.1, hcond.2, r, hr, hok, hm, ?_⟩
      rw [entryIn_storageOpenPut, if_pos hcond]
    · rw [if_neg hcond] at hne
      exact absurd rfl hne

theorem networkFirstStrategy_snd_offline
    (net : Request → Option Response) (st : CacheStorage)
    (req : Request) (hn : net req = none) :
    (networkFirstStrategy net st req).2 = st := by
  cases hc : storageMatch st req.url with
  | some c => rw [nf_offline_cached net st req c hn hc]
  | none =>
    by_cases hd : req.destination = "document"
    · rw [nf_offline_document net st req hn hc hd]
    · rw [nf_offline_other net st req hn hc hd]

/-! ## Lemmas about install (addAll) -/

theorem fetchAllOk_urls (net : Request → Option Response) :
    ∀ (urls : List String) (es : List (Request × Response)),
      fetchAllOk net urls = some es
        → es.map (fun e => e.1.url) = urls := by
  intro urls
  induction urls with
  | nil =>
    intro es h
    simp [fetchAllOk] at h
    simp [← h]
  | cons u rest ih =>
    intro es h
    rw [fetchAllOk] at h
    split at h
    · split at h
      · cases hr : fetchAllOk net rest with
        | none => rw [hr] at h; simp at h
        | some es0 =>
          rw [hr] at h
          simp only [Option.map_some'] at h
          have h2 := Option.some.inj h
          rw [← h2]
          simp [requestOfUrl, ih es0 hr]
      · simp at h
    · simp at h

theorem fetchAllOk_allOk (net : Request → Option Response) :
    ∀ (urls : List String) (es : List (Request × Response)),
      fetchAllOk net urls = some es
        → ∀ e ∈ es, e.2.ok = true := by
  intro urls
  induction urls with
  | nil =>
    intro es h
    simp [fetchAllOk] at h
    subst h
    simp
  | cons u rest ih =>
    intro es h
    rw [fetchAllOk] at h
    split at h
    · rename_i r hr0
      split at h
      · rename_i hok
        cases hr : fetchAllOk net rest with
        | none => rw [hr] at h; simp at h
        | some es0 =>
          rw [hr] at h
          simp only [Option.map_some'] at h
          have h2 := Option.some.inj h
          rw [← h2]
          intro e he
          rcases List.mem_cons.mp he with he1 | he2
          · rw [he1]; exact hok
          · exact ih es0 hr e he2
      · simp at h
    · simp at h

theorem fetchAllOk_fail_of_mem (net : Request → Option Response) :
    ∀ (urls : List String) (u : String), u ∈ urls
      → net (requestOfUrl u) = none → fetchAllOk net urls = none := by
  intro urls
  induction urls with
  | nil => intro u h; simp at h
  | cons v rest ih =>
    intro u hmem hn
    rcases List.mem_cons.mp hmem with h1 | h2
    · rw [fetchAllOk, show net (requestOfUrl v) = none from h1 ▸ hn]
    · rw [fetchAllOk]
      cases hv : net (requestOfUrl v) with
      | none => rfl
      | some r =>
        by_cases hok : r.ok = true
        · simp only [hok, if_true, ih u h2 hn, Option.map_none']
        · simp only [hok, if_false, Bool.false_eq_true]

theorem cachePut_eq_append (c : Cache) (req : Request) (r : Response)
    (h : cacheEntry c req.url = none) :
    cachePut c req r = c ++ [(req, r)] := by
  induction c with
  | nil => simp [cachePut]
  | cons e rest ih =>
    by_cases he : e.1.url = req.url
    · simp [cacheEntry, beq_iff_eq, he] at h
    · rw [cacheEntry, if_neg (by simp [beq_iff_eq, he])] at h
      simp [cachePut, beq_iff_eq, he, ih h]

theorem cacheEntry_append (c1 c2 : Cache) (u : String) :
    cacheEntry (c1 ++ c2) u
      = match cacheEntry c1 u with
        | some e => some e
        | none => cacheEntry c2 u := by
  induction c1 with
  | nil => simp [cacheEntry]
  | cons e rest ih =>
    by_cases he : e.1.url = u
    · simp [cacheEntry, beq_iff_eq, he]
    · simp [cacheEntry, beq_iff_eq, he, ih]

theorem foldl_cachePut_fresh :
    ∀ (es : List (Request × Response)) (c : Cache),
      (∀ e ∈ es, cacheEntry c e.1.url = none)
        → (es.map (fun e => e.1.url)).Nodup
        → List.foldl (fun acc e => cachePut acc e.1 e.2) c es
            = c ++ es := by
  intro es
  induction es with
  | nil => intro c _ _; simp
  | cons e rest ih =>
    intro c hfresh hnodup
    have hhead : cacheEntry c e.1.url = none :=
      hfresh e (List.mem_cons_self e rest)
    have hput : cachePut c e.1 e.2 = c ++ [e] := by
      rw [cachePut_eq_append c e.1 e.2 hhead]
    rw [List.foldl_cons, hput]
    have hnodup' : (rest.map (fun e => e.1.url)).Nodup := by
      simpa using hnodup.of_cons
    have hfresh' : ∀ e' ∈ rest, cacheEntry (c ++ [e]) e'.1.url = none := by
      intro e' he'
      rw [cacheEntry_append, hfresh e' (List.mem_cons_of_mem e he')]
      have hne : ¬ e.1.url = e'.1.url := by
        intro hx
        have : e'.1.url ∈ rest.map (fun e => e.1.url) :=
          List.mem_map_of_mem _ he'
        rw [List.map_cons] at hnodup
        exact (List.nodup_cons.mp hnodup).1 (hx ▸ this)
      simp [cacheEntry, beq_iff_eq, hne]
    rw [ih (c ++ [e]) hfresh' hnodup']
    simp

theorem storageLookup_storagePut_isSome (st : CacheStorage)
    (n : String) (req : Request) (r : Response)
    (h : (storageLookup st n).isSome) :
    (storageLookup (storagePut st n req r) n).isSome := by
  rw [storageLookup_storagePut]
  simp only [if_pos rfl]
  rcases Option.isSome_iff_exists.mp h with ⟨c, hc⟩
  simp [hc]

theorem partContents_storagePutAll_self :
    ∀ (es : List (Request × Response)) (st : CacheStorage)
      (n : String), (storageLookup st n).isSome
      → partContents (storagePutAll st n es) n
          = List.foldl (fun acc e => cachePut acc e.1 e.2)
              (partContents st n) es := by
  intro es
  induction es with
  | nil => intro st n _; simp [storagePutAll]
  | cons e rest ih =>
    intro st n h
    rw [storagePutAll, List.foldl_cons,
      ih (storagePut st n e.1 e.2) n
        (storageLookup_storagePut_isSome st n e.1 e.2 h),
      partContents_storagePut st n e.1 e.2 h, if_pos rfl]

/-! ## Lemmas about activation cleanup -/

theorem keysOf_filter (st : CacheStorage) (q : String → Bool) :
    keysOf (st.filter (fun p => q p.1)) = (keysOf st).filter q := by
  induction st with
  | nil => simp [keysOf]
  | cons p rest ih =>
    cases hq : q p.1 <;>
      simp [keysOf, List.filter_cons, hq] <;>
        simpa [keysOf] using ih

theorem activateDeletions_contains (ks : List String) (nm : String) :
    (activateDeletions ks).contains nm = true
      ↔ nm ∈ ks ∧ strStartsWith nm "recipes" = true
          ∧ ¬ nm = PRECACHE_NAME ∧ ¬ nm = RUNTIME_CACHE
          ∧ ¬ nm = IMAGES_CACHE := by
  constructor
  · intro h
    have hmem : nm ∈ activateDeletions ks := by
      simpa using h
    rw [activateDeletions] at hmem
    have h2 := List.mem_filter.mp hmem
    have h3 := List.mem_filter.mp h2.1
    have h4 := h2.2
    simp only [Bool.and_eq_true, Bool.not_eq_true', beq_eq_false_iff_ne,
      ne_eq] at h4
    exact ⟨h3.1, h3.2, h4.1.1, h4.1.2, h4.2⟩
  · rintro ⟨hks, hsw, h1, h2, h3⟩
    have hmem : nm ∈ activateDeletions ks := by
      rw [activateDeletions]
      exact List.mem_filter.mpr ⟨List.mem_filter.mpr ⟨hks, hsw⟩,
        by simp [h1, h2, h3]⟩
    simpa using hmem

/-! ## Lemmas about the favorites store -/

theorem mem_keys_saveFavorite :
    ∀ (st : FavoritesStore) (meal : Meal) (k : String),
      k ∈ (saveFavorite st meal).map (·.idMeal)
        → k ∈ st.map (·.idMeal) ∨ k = meal.idMeal := by
  intro st
  induction st with
  | nil =>
    intro meal k h
    simp [saveFavorite] at h
    right
    exact h
  | cons m rest ih =>
    intro meal k h
    by_cases hm : m.idMeal = meal.idMeal
    · have hs : saveFavorite (m :: rest) meal = meal :: rest := by
        simp [saveFavorite, beq_iff_eq, hm]
      rw [hs] at h
      simp only [List.map_cons, List.mem_cons] at h ⊢
      rcases h with h1 | h2
      · right; exact h1
      · left; right; exact h2
    · have hs : saveFavorite (m :: rest) meal
          = m :: saveFavorite rest meal := by
        simp [saveFavorite, beq_iff_eq, hm]
      rw [hs] at h
      simp only [List.map_cons, List.mem_cons] at h ⊢
      rcases h with h1 | h2
      · left; left; exact h1
      · rcases ih meal k h2 with h3 | h4
        · left; right; exact h3
        · right; exact h4

/-! ## Claim theorems -/

/-- C5: the Fetch Interceptor intercepts only GET, same-origin
requests — all others pass through untouched — and dispatches every
intercepted request to exactly one strategy by first-match
classification: /api path prefix to Network-First, image destination
to Stale-While-Revalidate, style/script/font destination to
Cache-First, everything else (documents etc.) to Network-First. -/
theorem fetch_listener_classification (o : String) (req : Request) :
    (req.method ≠ "GET" → fetchListener o req = .passThrough)
    ∧ (req.origin ≠ o → fetchListener o req = .passThrough)
    ∧ (req.method = "GET" → req.origin = o →
        ((strStartsWith req.pathname "/api" = true
            → fetchListener o req = .networkFirst)
          ∧ (strStartsWith req.pathname "/api" = false →
              ((req.destination = "image"
                  → fetchListener o req = .staleWhileRevalidate)
                ∧ ((req.destination = "style" ∨ req.destination = "script"
                      ∨ req.destination = "font")
                    → fetchListener o req = .cacheFirst)
                ∧ (req.destination ≠ "image" → req.destination ≠ "style"
                    → req.destination ≠ "script"
                    → req.destination ≠ "font"
                    → fetchListener o req = .networkFirst))))) := by
  refine ⟨?_, ?_, ?_⟩
  · intro h
    simp [fetchListener, beq_iff_eq, h]
  · intro h
    by_cases hm : req.method = "GET" <;>
      simp [fetchListener, beq_iff_eq, h, hm]
  · intro hm ho
    refine ⟨?_, ?_⟩
    · intro hapi
      simp [fetchListener, beq_iff_eq, hm, ho, hapi]
    · intro hapi
      refine ⟨?_, ?_, ?_⟩
      · intro hd
        simp [fetchListener, beq_iff_eq, hm, ho, hapi, hd]
      · rintro (hd | hd | hd) <;>
          simp [fetchListener, beq_iff_eq, hm, ho, hapi, hd]
      · intro h1 h2 h3 h4
        simp [fetchListener, beq_iff_eq, hm, ho, hapi, h1, h2, h3, h4]

/-- Witness for C5: the classification evaluated on a concrete API
request and a concrete image request. -/
theorem fetch_listener_classification_witness :
    fetchListener "https://recipes.example" apiRequest
        = Dispatch.networkFirst
    ∧ fetchListener "https://recipes.example" imageRequest
        = Dispatch.staleWhileRevalidate :=
  ⟨((fetch_listener_classification "https://recipes.example"
        apiRequest).2.2 rfl rfl).1 (by decide),
   (((fetch_listener_classification "https://recipes.example"
        imageRequest).2.2 rfl rfl).2 (by decide)).1 rfl⟩

/-- C6: saving a Favorite Record and immediately reading its key
returns a record equal to what was saved (the model has no network
component, so the result is independent of network state by
construction), and saving preserves the at-most-one-record-per-key
invariant (upsert semantics: re-saving overwrites in place). -/
theorem saveFavorite_roundtrip_upsert (st : FavoritesStore)
    (meal : Meal) :
    getFavorite (saveFavorite st meal) meal.idMeal = some meal
    ∧ (distinctKeys st → distinctKeys (saveFavorite st meal)) := by
  constructor
  · induction st with
    | nil => simp [saveFavorite, getFavorite]
    | cons m rest ih =>
      by_cases hm : m.idMeal = meal.idMeal
      · simp [saveFavorite, getFavorite, beq_iff_eq, hm]
      · simp [saveFavorite, getFavorite, beq_iff_eq, hm, ih]
  · induction st with
    | nil =>
      intro _
      simp [saveFavorite, distinctKeys]
    | cons m rest ih =>
      intro hd
      rw [distinctKeys, List.map_cons, List.nodup_cons] at hd
      by_cases hm : m.idMeal = meal.idMeal
      · have hs : saveFavorite (m :: rest) meal = meal :: rest := by
          simp [saveFavorite, beq_iff_eq, hm]
        rw [distinctKeys, hs, List.map_cons, List.nodup_cons]
        exact ⟨hm ▸ hd.1, hd.2⟩
      · have hs : saveFavorite (m :: rest) meal
            = m :: saveFavorite rest meal := by
          simp [saveFavorite, beq_iff_eq, hm]
        rw [distinctKeys, hs, List.map_cons, List.nodup_cons]
        refine ⟨?_, ih hd.2⟩
        intro hmem
        rcases mem_keys_saveFavorite rest meal m.idMeal hmem with h3 | h4
        · exact hd.1 h3
        · exact hm h4

/-- Witness for C6: round trip and invariant on a concrete store. -/
theorem saveFavorite_roundtrip_upsert_witness :
    getFavorite (saveFavorite [pieMeal, tartMeal] pieMealV2)
        pieMealV2.idMeal = some pieMealV2
    ∧ distinctKeys (saveFavorite [pieMeal, tartMeal] pieMealV2) :=
  ⟨(saveFavorite_roundtrip_upsert [pieMeal, tartMeal] pieMealV2).1,
   (saveFavorite_roundtrip_upsert [pieMeal, tartMeal] pieMealV2).2
     (by rw [distinctKeys]; decide)⟩

/-- C9: removing an id that is absent from the favorites store is a
no-op (the store is returned unchanged, no error path exists), and a
lookup for a missing key returns the explicit not-found signal `none`
(IndexedDB resolves with undefined) exactly when no record carries the
key; no lookup ever throws, as getFavorite is a total function. -/
theorem favorites_missing_key_total (st : FavoritesStore)
    (mealId : String) :
    (getFavorite st mealId = none → removeFavorite st mealId = st)
    ∧ (getFavorite st mealId = none ↔ ∀ m ∈ st, m.idMeal ≠ mealId) := by
  induction st with
  | nil => simp [getFavorite, removeFavorite]
  | cons m rest ih =>
    by_cases hm : m.idMeal = mealId
    · constructor
      · intro h
        rw [getFavorite] at h
        simp [beq_iff_eq, hm] at h
      · constructor
        · intro h
          rw [getFavorite] at h
          simp [beq_iff_eq, hm] at h
        · intro h
          exact absurd hm (h m (List.mem_cons_self m rest))
    · have hg : getFavorite (m :: rest) mealId
          = getFavorite rest mealId := by
        simp [getFavorite, beq_iff_eq, hm]
      constructor
      · intro h
        rw [hg] at h
        have hr := ih.1 h
        rw [removeFavorite] at hr ⊢
        simp [List.filter_cons, beq_iff_eq, hm, hr]
      · rw [hg]
        constructor
        · intro h m' hm'
          rcases List.mem_cons.mp hm' with h1 | h2
          · rw [h1]; exact hm
          · exact (ih.2.mp h) m' h2
        · intro h
          exact ih.2.mpr (fun m' h2 => h m' (List.mem_cons_of_mem m h2))

/-- Witness for C9: removing a missing id from a concrete store
returns it unchanged. -/
theorem favorites_missing_key_total_witness :
    removeFavorite [pieMeal] "00000" = [pieMeal] :=
  (favorites_missing_key_total [pieMeal] "00000").1 (by decide)

/-- C10: searchMeals with an empty or whitespace-only query returns
the empty list and fetches no URL at all (the fetch trace is empty for
every network and every encoder), and for a non-blank query whose
proxy response is ok with a null meals field it returns the empty list
rather than null. -/
theorem searchMeals_blank_and_null (enc : String → String)
    (net : String → Option (Bool × SearchResponse)) (query : String) :
    (strTrim query = "" → searchMeals enc net query = (Except.ok [], []))
    ∧ (strTrim query ≠ "" →
        net ("/api/search?s=" ++ enc query)
            = some (true, { meals := none }) →
        searchMeals enc net query
          = (Except.ok [], ["/api/search?s=" ++ enc query])) := by
  constructor
  · intro h
    simp [searchMeals, beq_iff_eq, h]
  · intro h hn
    simp [searchMeals, beq_iff_eq, h, hn]

/-- Witness for C10: a whitespace-only query and a meals-null response
on a concrete query. -/
theorem searchMeals_blank_and_null_witness :
    searchMeals (fun s => s) nullMealsNet "   " = (Except.ok [], [])
    ∧ searchMeals (fun s => s) nullMealsNet "pie"
        = (Except.ok [], ["/api/search?s=pie"]) :=
  ⟨(searchMeals_blank_and_null (fun s => s) nullMealsNet "   ").1
      (by decide),
   (searchMeals_blank_and_null (fun s => s) nullMealsNet "pie").2
      (by decide) rfl⟩

/-- C1 counterexample: in the state produced by a fresh install (the
four shell URLs in the precache partition, runtime and images empty),
a document request for /index.html while the network is down has no
stored copy in the runtime partition, so the claim mandates the
precached offline-fallback document; the code instead returns the
/index.html copy found in the precache partition, because its fallback
lookup is caches.match over every partition, not a runtime-partition
lookup. networkFirstClaimC1 is the claim's wording made precise; the
two disagree at this input. -/
theorem networkFirst_runtime_lookup_counterexample :
    cacheMatch (partContents precacheOnlyState RUNTIME_CACHE)
        indexRequest.url = none
    ∧ (networkFirstStrategy offlineNet precacheOnlyState
          indexRequest).1 = some indexCached
    ∧ (networkFirstClaimC1 offlineNet precacheOnlyState
          indexRequest).1 = some offlineCached
    ∧ indexCached ≠ offlineCached :=
  ⟨rfl, rfl, rfl, by decide⟩

/-- C1 amended: on network failure Network-First falls back to a
lookup across all cache partitions (caches.match), not the runtime
partition alone; if a stored copy of the exact request URL exists in
any partition it is returned; if none exists and the request is a
document, the offline-fallback lookup result is returned; if none
exists and the request is not a document (as /api requests are not), a
synthetic 503 is returned. In particular a request cached by an
earlier successful Network-First execution into a previously unused
URL is replayed from cache when the network becomes unreachable. -/
theorem networkFirst_offline_fallback_amended :
    (∀ (net : Request → Option Response) (st : CacheStorage)
        (req : Request) (c : Response), net req = none
        → storageMatch st req.url = some c
        → networkFirstStrategy net st req = (some c, st))
    ∧ (∀ (net : Request → Option Response) (st : CacheStorage)
        (req : Request), net req = none
        → storageMatch st req.url = none
        → req.destination = "document"
        → networkFirstStrategy net st req
            = (storageMatch st "/offline.html", st))
    ∧ (∀ (net : Request → Option Response) (st : CacheStorage)
        (req : Request), net req = none
        → storageMatch st req.url = none
        → ¬ req.destination = "document"
        → networkFirstStrategy net st req
            = (some { status := 503,
                      body := "Offline - No cache available" }, st))
    ∧ (∀ (net1 net2 : Request → Option Response) (st : CacheStorage)
        (req : Request) (r : Response),
        storageMatch st req.url = none
        → net1 req = some r → r.ok = true → req.method = "GET"
        → net2 req = none
        → (networkFirstStrategy net2
            ((networkFirstStrategy net1 st req).2) req).1 = some r) := by
  refine ⟨nf_offline_cached, nf_offline_document, nf_offline_other, ?_⟩
  intro net1 net2 st req r hfresh h1 hok hGET h2
  have hcond : (r.ok && (req.method == "GET")) = true := by
    simp [hok, hGET]
  rw [nf_ok net1 st req r h1 hcond]
  have hm : storageMatch (storageOpenPut st RUNTIME_CACHE req r) req.url
      = some r :=
    storageMatch_storageOpenPut_self_of_none st RUNTIME_CACHE req r hfresh
  rw [nf_offline_cached net2 _ req r h2 hm]

/-- Witness for C1 amended: an /api response cached while online is
replayed on the identical request while offline. -/
theorem networkFirst_offline_fallback_amended_witness :
    (networkFirstStrategy offlineNet
        ((networkFirstStrategy okNet [] apiRequest).2) apiRequest).1
      = some { status := 200, body := "/api/search?s=pie" } :=
  networkFirst_offline_fallback_amended.2.2.2 okNet offlineNet []
    apiRequest { status := 200, body := "/api/search?s=pie" }
    rfl rfl (by decide) rfl rfl

/-- C2 counterexample: with every cache partition absent (so the
offline-fallback document is stored nowhere), a document request under
network failure makes networkFirstStrategy return the result of
caches.match("/offline.html"), which is `none` — the JavaScript
function resolves with undefined, not with a usable response object,
contradicting the claim on exactly the path the claim singles out. -/
theorem strategies_usable_response_counterexample :
    (networkFirstStrategy offlineNet [] indexRequest).1 = none := rfl

/-- C2 amended: every strategy terminates (all three are total
functions of the embedded state) and returns a usable response on
every path, except that Network-First returns no response (undefined)
precisely when the network fails, no partition stores the request's
URL, the request is a document, and the offline-fallback document is
absent from every partition. Stale-While-Revalidate and Cache-First
always return a response that is a cached copy, the network response,
or the synthetic 503. -/
theorem strategies_usable_response_amended
    (net : Request → Option Response) (st : CacheStorage)
    (req : Request) :
    ((networkFirstStrategy net st req).1 = none
      ↔ (net req = none ∧ storageMatch st req.url = none
          ∧ req.destination = "document"
          ∧ storageMatch st "/offline.html" = none))
    ∧ (cacheMatch (partContents st IMAGES_CACHE) req.url
          = some (staleWhileRevalidateStrategy net st req).1
        ∨ net req = some (staleWhileRevalidateStrategy net st req).1
        ∨ (staleWhileRevalidateStrategy net st req).1
            = { status := 503, body := "Image unavailable" })
    ∧ (cacheMatch (partContents st PRECACHE_NAME) req.url
          = some (cacheFirstStrategy net st req).1
        ∨ net req = some (cacheFirstStrategy net st req).1
        ∨ (cacheFirstStrategy net st req).1
            = { status := 503, body := "Offline" }) := by
  refine ⟨?_, ?_, ?_⟩
  · cases hn : net req with
    | some r =>
      by_cases hc : (r.ok && (req.method == "GET")) = true
      · rw [nf_ok net st req r hn hc]
        simp [hn]
      · have hc' : (r.ok && (req.method == "GET")) = false := by
          simpa using hc
        rw [nf_ok_nocache net st req r hn hc']
        simp [hn]
    | none =>
      cases hc : storageMatch st req.url with
      | some c =>
        rw [nf_offline_cached net st req c hn hc]
        simp [hc]
      | none =>
        by_cases hd : req.destination = "document"
        · rw [nf_offline_document net st req hn hc hd]
          simp [hn, hc, hd]
        · rw [nf_offline_other net st req hn hc hd]
          simp [hd]
  · cases hhit : cacheMatch (partContents st IMAGES_CACHE) req.url with
    | some cached =>
      left
      rw [swr_hit_fst net st req cached hhit]
    | none =>
      right
      cases hn : net req with
      | some r =>
        left
        by_cases hok : r.ok = true
        · rw [swr_miss_ok net st req r hhit hn hok]
        · have hok' : r.ok = false := by simpa using hok
          rw [swr_miss_badresp net st req r hhit hn hok']
      | none =>
        right
        rw [swr_miss_offline net st req hhit hn]
  · cases hhit : cacheMatch (partContents st PRECACHE_NAME) req.url with
    | some cached =>
      left
      rw [cf_hit net st req cached hhit]
    | none =>
      right
      cases hn : net req with
      | some r =>
        left
        by_cases hc : (r.ok && (req.method == "GET")) = true
        · rw [cf_miss_ok net st req r hhit hn hc]
        · have hc' : (r.ok && (req.method == "GET")) = false := by
            simpa using hc
          rw [cf_miss_nocache net st req r hhit hn hc']
      | none =>
        right
        rw [cf_miss_offline net st req hhit hn]

/-- C7: Stale-While-Revalidate returns an existing cached copy as the
response for every network behaviour (the response value does not
depend on `net`, modelling that no network round-trip is waited on),
refreshes the images-partition entry when the background re-fetch
returns an ok response, leaves the cache contents unchanged when the
background re-fetch fails or returns a non-ok response (failures
swallowed), and on a cache miss fetches synchronously: an ok response
is stored in the images partition and returned, and network failure
yields the synthetic 503 with no entry written. -/
theorem staleWhileRevalidate_contract :
    (∀ (net : Request → Option Response) (st : CacheStorage)
        (req : Request) (cached : Response),
        cacheMatch (partContents st IMAGES_CACHE) req.url = some cached
        → (staleWhileRevalidateStrategy net st req).1 = cached)
    ∧ (∀ (net : Request → Option Response) (st : CacheStorage)
        (req : Request) (cached r : Response),
        cacheMatch (partContents st IMAGES_CACHE) req.url = some cached
        → net req = some r → r.ok = true
        → (staleWhileRevalidateStrategy net st req).2
            = storageOpenPut st IMAGES_CACHE req r)
    ∧ (∀ (net : Request → Option Response) (st : CacheStorage)
        (req : Request) (cached : Response),
        cacheMatch (partContents st IMAGES_CACHE) req.url = some cached
        → net req = none
        → (staleWhileRevalidateStrategy net st req).2
            = storageOpen st IMAGES_CACHE)
    ∧ (∀ (net : Request → Option Response) (st : CacheStorage)
        (req : Request) (cached r : Response),
        cacheMatch (partContents st IMAGES_CACHE) req.url = some cached
        → net req = some r → r.ok = false
        → (staleWhileRevalidateStrategy net st req).2
            = storageOpen st IMAGES_CACHE)
    ∧ (∀ (net : Request → Option Response) (st : CacheStorage)
        (req : Request) (r : Response),
        cacheMatch (partContents st IMAGES_CACHE) req.url = none
        → net req = some r → r.ok = true
        → staleWhileRevalidateStrategy net st req
            = (r, storageOpenPut st IMAGES_CACHE req r))
    ∧ (∀ (net : Request → Option Response) (st : CacheStorage)
        (req : Request),
        cacheMatch (partContents st IMAGES_CACHE) req.url = none
        → net req = none
        → staleWhileRevalidateStrategy net st req
            = ({ status := 503, body := "Image unavailable" },
               storageOpen st IMAGES_CACHE)) :=
  ⟨swr_hit_fst, swr_hit_snd_refresh, swr_hit_snd_offline,
   swr_hit_snd_badresp, swr_miss_ok, swr_miss_offline⟩

/-- Witness for C7: a cached image is served while offline and the
cache contents are unchanged. -/
theorem staleWhileRevalidate_contract_witness :
    (staleWhileRevalidateStrategy offlineNet imageCachedState
        imageRequest).1 = pieCached
    ∧ (staleWhileRevalidateStrategy offlineNet imageCachedState
        imageRequest).2 = storageOpen imageCachedState IMAGES_CACHE :=
  ⟨staleWhileRevalidate_contract.1 offlineNet imageCachedState
      imageRequest pieCached rfl,
   staleWhileRevalidate_contract.2.2.1 offlineNet imageCachedState
      imageRequest pieCached rfl rfl⟩

/-- C3: for every execution of any of the three strategies on a GET
request (the fetch listener dispatches only GET requests to the
strategies), the resulting cache storage satisfies the write
discipline: no stored entry is ever deleted, and the only entry that
may change is the input request's URL in the strategy's designated
partition (runtime for Network-First, images for
Stale-While-Revalidate, precache for Cache-First), written with a
network response whose status indicates success, for the GET
request itself — so each execution writes at most one entry. -/
theorem strategies_cache_write_discipline
    (net : Request → Option Response) (st : CacheStorage)
    (req : Request) (hGET : req.method = "GET") :
    writeDiscipline RUNTIME_CACHE req net st
        ((networkFirstStrategy net st req).2)
    ∧ writeDiscipline IMAGES_CACHE req net st
        ((staleWhileRevalidateStrategy net st req).2)
    ∧ writeDiscipline PRECACHE_NAME req net st
        ((cacheFirstStrategy net st req).2) := by
  refine ⟨?_, ?_, ?_⟩
  · cases hn : net req with
    | some r =>
      by_cases hok : r.ok = true
      · have hc : (r.ok && (req.method == "GET")) = true := by
          simp [hok, hGET]
        rw [nf_ok net st req r hn hc]
        exact writeDiscipline_openPut _ req net st r hn hok hGET
      · have hok' : r.ok = false := by simpa using hok
        have hc : (r.ok && (req.method == "GET")) = false := by
          simp [hok']
        rw [nf_ok_nocache net st req r hn hc]
        exact writeDiscipline_refl _ req net st
    | none =>
      rw [networkFirstStrategy_snd_offline net st req hn]
      exact writeDiscipline_refl _ req net st
  · cases hhit : cacheMatch (partContents st IMAGES_CACHE) req.url with
    | some cached =>
      cases hn : net req with
      | some r =>
        by_cases hok : r.ok = true
        · rw [swr_hit_snd_refresh net st req cached r hhit hn hok]
          exact writeDiscipline_openPut _ req net st r hn hok hGET
        · have hok' : r.ok = false := by simpa using hok
          rw [swr_hit_snd_badresp net st req cached r hhit hn hok']
          exact writeDiscipline_open _ req net st _
      | none =>
        rw [swr_hit_snd_offline net st req cached hhit hn]
        exact writeDiscipline_open _ req net st _
    | none =>
      cases hn : net req with
      | some r =>
        by_cases hok : r.ok = true
        · rw [swr_miss_ok net st req r hhit hn hok]
          exact writeDiscipline_openPut _ req net st r hn hok hGET
        · have hok' : r.ok = false := by simpa using hok
          rw [swr_miss_badresp net st req r hhit hn hok']
          exact writeDiscipline_open _ req net st _
      | none =>
        rw [swr_miss_offline net st req hhit hn]
        exact writeDiscipline_open _ req net st _
  · cases hhit : cacheMatch (partContents st PRECACHE_NAME) req.url with
    | some cached =>
      rw [cf_hit net st req cached hhit]
      exact writeDiscipline_open _ req net st _
    | none =>
      cases hn : net req with
      | some r =>
        by_cases hc : (r.ok && (req.method == "GET")) = true
        · have hok : r.ok = true := by
            have hc2 := hc
            simp at hc2
            exact hc2.1
          rw [cf_miss_ok net st req r hhit hn hc]
          exact writeDiscipline_openPut _ req net st r hn hok hGET
        · have hc' : (r.ok && (req.method == "GET")) = false := by
            simpa using hc
          rw [cf_miss_nocache net st req r hhit hn hc']
          exact writeDiscipline_open _ req net st _
      | none =>
        rw [cf_miss_offline net st req hhit hn]
        exact writeDiscipline_open _ req net st _

/-- Witness for C3: the write discipline of a Network-First execution
evaluated on a concrete request, network and empty storage. -/
theorem strategies_cache_write_discipline_witness :
    writeDiscipline RUNTIME_CACHE apiRequest okNet []
      ((networkFirstStrategy okNet [] apiRequest).2) :=
  (strategies_cache_write_discipline okNet [] apiRequest rfl).1

/-- C4: activation deletes exactly the partitions whose name starts
with the cache-name prefix "recipes" but is none of the three
currently-expected names, and afterwards every remaining prefixed
partition name is one of the three current-version names — so no
partition of a prior version survives activation. -/
theorem activate_deletes_exactly_stale (st : CacheStorage) :
    keysOf (activateStep st)
      = (keysOf st).filter (fun nm =>
          !(strStartsWith nm "recipes" && !(nm == PRECACHE_NAME)
            && !(nm == RUNTIME_CACHE) && !(nm == IMAGES_CACHE)))
    ∧ ∀ nm ∈ keysOf (activateStep st),
        strStartsWith nm "recipes" = true
        → nm = PRECACHE_NAME ∨ nm = RUNTIME_CACHE
            ∨ nm = IMAGES_CACHE := by
  have hkeys : keysOf (activateStep st)
      = (keysOf st).filter
          (fun nm => !((activateDeletions (keysOf st)).contains nm)) := by
    rw [activateStep, storageDeleteAll]
    exact keysOf_filter st
      (fun nm => !((activateDeletions (keysOf st)).contains nm))
  constructor
  · rw [hkeys]
    apply List.filter_congr
    intro nm hmem
    by_cases hdel : (activateDeletions (keysOf st)).contains nm = true
    · rcases (activateDeletions_contains _ nm).mp hdel
        with ⟨_, hsw, h1, h2, h3⟩
      rw [hdel]
      simp [hsw, beq_iff_eq, h1, h2, h3]
    · have hdel' : (activateDeletions (keysOf st)).contains nm
          = false := by simpa using hdel
      rw [hdel']
      by_cases hsw : strStartsWith nm "recipes" = true
      · by_cases h1 : nm = PRECACHE_NAME
        · simp [hsw, h1]
        · by_cases h2 : nm = RUNTIME_CACHE
          · simp [hsw, beq_iff_eq, h1, h2]
          · by_cases h3 : nm = IMAGES_CACHE
            · simp [hsw, beq_iff_eq, h1, h2, h3]
            · exact absurd ((activateDeletions_contains _ nm).mpr
                ⟨hmem, hsw, h1, h2, h3⟩) hdel
      · have hsw' : strStartsWith nm "recipes" = false := by
          simpa using hsw
        simp [hsw']
  · intro nm hmem hsw
    rw [hkeys] at hmem
    have h2 := List.mem_filter.mp hmem
    have hdel : (activateDeletions (keysOf st)).contains nm = false := by
      simpa using h2.2
    by_contra hcon
    push_neg at hcon
    have hc : (activateDeletions (keysOf st)).contains nm = true :=
      (activateDeletions_contains _ nm).mpr
        ⟨h2.1, hsw, hcon.1, hcon.2.1, hcon.2.2⟩
    rw [hdel] at hc
    exact Bool.false_ne_true hc

/-- Witness for C4: activation on a storage holding a prior-version
partition, the three current partitions and a foreign cache deletes
exactly the prior-version one. -/
theorem activate_deletes_exactly_stale_witness :
    keysOf (activateStep mixedVersionState)
      = [PRECACHE_NAME, RUNTIME_CACHE, IMAGES_CACHE, "workbox-other"]
    ∧ ("recipes-runtime-v1" = PRECACHE_NAME
        ∨ "recipes-runtime-v1" = RUNTIME_CACHE
        ∨ "recipes-runtime-v1" = IMAGES_CACHE) := by
  constructor
  · rw [(activate_deletes_exactly_stale mixedVersionState).1]
    decide
  · exact (activate_deletes_exactly_stale mixedVersionState).2
      "recipes-runtime-v1" (by decide) (by decide)

/-- C8: the precache manifest is exactly the four shell URLs; a
failing fetch of any manifest entry makes the install step fail with
the contents of every partition unchanged (no partial shell
committed, matching the atomic batch semantics of cache.addAll); and
a successful install from a state with no precache partition leaves
the precache partition holding exactly the four manifest URLs, all
with success responses. -/
theorem install_precache_manifest :
    PRECACHE_URLS
        = ["/", "/index.html", "/manifest.webmanifest", "/offline.html"]
    ∧ (∀ (net : Request → Option Response) (st : CacheStorage),
        (installStep net st).1 = false
        → ∀ m, partContents (installStep net st).2 m
            = partContents st m)
    ∧ (∀ (net : Request → Option Response) (st : CacheStorage)
        (u : String), u ∈ PRECACHE_URLS
        → net (requestOfUrl u) = none
        → (installStep net st).1 = false)
    ∧ (∀ (net : Request → Option Response) (st : CacheStorage),
        storageLookup st PRECACHE_NAME = none
        → (installStep net st).1 = true
        → (partContents (installStep net st).2 PRECACHE_NAME).map
              (fun e => e.1.url) = PRECACHE_URLS
          ∧ ∀ e ∈ partContents (installStep net st).2 PRECACHE_NAME,
              e.2.ok = true) := by
  refine ⟨rfl, ?_, ?_, ?_⟩
  · intro net st h m
    cases hf : fetchAllOk net PRECACHE_URLS with
    | some es =>
      rw [installStep, hf] at h
      simp at h
    | none =>
      have hsnd : (installStep net st).2 = storageOpen st PRECACHE_NAME := by
        rw [installStep, hf]
      rw [hsnd]
      exact partContents_storageOpen st PRECACHE_NAME m
  · intro net st u hu hn
    rw [installStep, fetchAllOk_fail_of_mem net PRECACHE_URLS u hu hn]
  · intro net st h0 h1
    cases hf : fetchAllOk net PRECACHE_URLS with
    | none =>
      rw [installStep, hf] at h1
      simp at h1
    | some es =>
      have hsnd : (installStep net st).2
          = storagePutAll (storageOpen st PRECACHE_NAME)
              PRECACHE_NAME es := by
        rw [installStep, hf]
      rw [hsnd]
      have hurls := fetchAllOk_urls net PRECACHE_URLS es hf
      have hopen : (storageLookup (storageOpen st PRECACHE_NAME)
          PRECACHE_NAME).isSome :=
        storageLookup_storageOpen_isSome st PRECACHE_NAME
      have hempty : partContents (storageOpen st PRECACHE_NAME)
          PRECACHE_NAME = [] := by
        rw [partContents_storageOpen, partContents, h0]
        rfl
      have hfold := partContents_storagePutAll_self es
        (storageOpen st PRECACHE_NAME) PRECACHE_NAME hopen
      rw [hempty] at hfold
      have hnodup : (es.map (fun e => e.1.url)).Nodup := by
        rw [hurls]
        decide
      have hfresh : ∀ e ∈ es, cacheEntry [] e.1.url = none := by
        intro e _
        rfl
      rw [foldl_cachePut_fresh es [] hfresh hnodup] at hfold
      simp only [List.nil_append] at hfold
      rw [hfold]
      exact ⟨hurls, fetchAllOk_allOk net PRECACHE_URLS es hf⟩

/-- Witness for C8: a successful install from the empty storage
populates the precache partition with exactly the manifest URLs, and
an install whose root-document fetch fails reports failure. -/
theorem install_precache_manifest_witness :
    (partContents (installStep okNet []).2 PRECACHE_NAME).map
        (fun e => e.1.url) = PRECACHE_URLS
    ∧ (installStep offlineNet []).1 = false :=
  ⟨(install_precache_manifest.2.2.2 okNet [] rfl (by decide)).1,
   install_precache_manifest.2.2.1 offlineNet [] "/" (by decide) rfl⟩

end Recipes
